import Mathlib

/-!
Verification of the core decision engine of the NBC hackathon trading bot.

Every operation the claims mention is shallowly embedded from the Python
source: floats become exact rationals, Python ints become `Int` or `Nat`,
dicts become structures or association lists, and the mutating methods
become pure state-passing functions.  The theorems at the end of the file
settle the specification claims against these embeddings.
-/

/-- A trading side, the strings BUY and SELL in the Python source. -/
inductive Side where
  | BUY
  | SELL
deriving DecidableEq, Repr

/-- An order dict as produced by the strategies and the router:
keys side, price and qty. -/
structure Order where
  side : Side
  price : ℚ
  qty : Int
deriving DecidableEq, Repr

/-- `round_qty_to_100` from `src/strategies/base.py`: round the quantity
down to the nearest multiple of 100 (Python floor division `//`), then
clamp to the interval from 100 to 500. -/
def round_qty_to_100 (qty : Int) : Int :=
  max 100 (min 500 (qty.fdiv 100 * 100))

/-- Round half to even, modelling Python's `round` applied to our exact
rationals (CPython rounds ties to the even neighbour). -/
def roundHalfEven (x : ℚ) : Int :=
  if x - ⌊x⌋ < 1/2 then ⌊x⌋
  else if 1/2 < x - ⌊x⌋ then ⌊x⌋ + 1
  else if ⌊x⌋ % 2 = 0 then ⌊x⌋ else ⌊x⌋ + 1

/-- Python `round(x, 2)` on our exact rationals. -/
def round2 (x : ℚ) : ℚ := (roundHalfEven (x * 100) : ℚ) / 100

namespace StrategyRouter

/-- The hard inventory limit `HARD_LIMIT` of
`StrategyRouter._apply_risk_management`. -/
def HARD_LIMIT : Int := 4500

/-- The inventory that results if order `o` is filled in full, as computed
by `_apply_risk_management` in `src/strategies/router.py`. -/
def resultingInventory (inventory : Int) (o : Order) : Int :=
  match o.side with
  | Side.BUY => inventory + o.qty
  | Side.SELL => inventory - o.qty

/-- `StrategyRouter._apply_risk_management` from `src/strategies/router.py`
(lines 125 to 168), translated branch for branch. -/
def applyRiskManagement (order : Option Order) (bid ask : ℚ) (inventory : Int) :
    Option Order :=
  match order with
  | none =>
    if HARD_LIMIT ≤ inventory then some ⟨Side.SELL, round2 (bid - 5/100), 500⟩
    else if inventory ≤ -HARD_LIMIT then some ⟨Side.BUY, round2 (ask + 5/100), 500⟩
    else none
  | some o =>
    let resulting := resultingInventory inventory o
    if HARD_LIMIT ≤ |resulting| then
      if 3500 < inventory then
        some ⟨Side.SELL, round2 bid, round_qty_to_100 (inventory - 3000)⟩
      else if inventory < -3500 then
        some ⟨Side.BUY, round2 ask, round_qty_to_100 (|inventory| - 3000)⟩
      else none
    else
      some ⟨o.side, o.price, round_qty_to_100 o.qty⟩

end StrategyRouter

/-- One market observation fed to `IncrementalMetrics.update`: the four
arguments mid, spread, bid depth and ask depth of the Python method. -/
structure MInput where
  mid : ℚ
  spread : ℚ
  bid_depth : Int
  ask_depth : Int
deriving DecidableEq, Repr

/-- The `IncrementalMetrics` object of `src/strategies/metrics.py`.

Python floats are embedded as exact rationals and the three `deque`
rolling windows as lists (newest element last).  The source also stores
`volatility = sqrt(max(0, mid_variance))` and
`z_score = (mid - avg_mid) / volatility` when `volatility > 0.001` else 0;
the square root is irrational, so the embedding stores the exact
`mid_variance` instead.  No claim and no embedded operation reads
`volatility` or `z_score` (the classifier reads `price_velocity`,
`imbalance`, `spread_ratio`, `depth_ratio`, `churn_rate` and `calibrated`
only), and `spread_variance` is a local of `update` that the source never
stores.  The fields `last_mid`, `mid_changes` and `churn_window` embed the
private `_last_mid`, `_mid_changes` and `_churn_window`. -/
structure IncrementalMetrics where
  window_size : Nat
  calibration_steps : Nat
  mid_history : List ℚ
  spread_history : List ℚ
  depth_history : List ℚ
  mid_sum : ℚ
  spread_sum : ℚ
  depth_sum : ℚ
  mid_sq_sum : ℚ
  spread_sq_sum : ℚ
  baseline_spread : Option ℚ
  baseline_depth : Option ℚ
  baseline_mid : Option ℚ
  calibrated : Bool
  spread_ratio : ℚ
  depth_ratio : ℚ
  price_velocity : ℚ
  mid_variance : ℚ
  imbalance : ℚ
  churn_rate : ℚ
  last_mid : Option ℚ
  mid_changes : Nat
  churn_window : Nat
deriving DecidableEq, Repr

/-- `IncrementalMetrics.__init__` (the Python defaults are
`window_size = 100`, `calibration_steps = 100`). -/
def IncrementalMetrics.init (w c : Nat) : IncrementalMetrics :=
  { window_size := w
    calibration_steps := c
    mid_history := []
    spread_history := []
    depth_history := []
    mid_sum := 0
    spread_sum := 0
    depth_sum := 0
    mid_sq_sum := 0
    spread_sq_sum := 0
    baseline_spread := none
    baseline_depth := none
    baseline_mid := none
    calibrated := false
    spread_ratio := 1
    depth_ratio := 1
    price_velocity := 0
    mid_variance := 0
    imbalance := 0
    churn_rate := 0
    last_mid := none
    mid_changes := 0
    churn_window := 20 }

/-- The eviction prologue of `update`: when the window is full, subtract
the oldest value of each window from its running sums and drop it.  In the
source the subtraction happens explicitly and the drop is performed by the
`deque` on append; both are guarded by the same test
`len(mid_history) == window_size`, so they are combined here. -/
def IncrementalMetrics.evictOldest (s : IncrementalMetrics) : IncrementalMetrics :=
  if s.mid_history.length = s.window_size then
    { s with
      mid_sum := s.mid_sum - s.mid_history.headI
      mid_sq_sum := s.mid_sq_sum - s.mid_history.headI * s.mid_history.headI
      spread_sum := s.spread_sum - s.spread_history.headI
      spread_sq_sum := s.spread_sq_sum - s.spread_history.headI * s.spread_history.headI
      depth_sum := s.depth_sum - s.depth_history.headI
      mid_history := s.mid_history.tail
      spread_history := s.spread_history.tail
      depth_history := s.depth_history.tail }
  else s

/-- `IncrementalMetrics.update` from `src/strategies/metrics.py`
(lines 55 to 154), translated statement for statement. -/
def IncrementalMetrics.update (s : IncrementalMetrics) (mid spread : ℚ)
    (bid_depth ask_depth : Int) : IncrementalMetrics :=
  let total_depth : Int := bid_depth + ask_depth
  let s₁ := s.evictOldest
  let s₂ := { s₁ with
    mid_sum := s₁.mid_sum + mid
    mid_sq_sum := s₁.mid_sq_sum + mid * mid
    spread_sum := s₁.spread_sum + spread
    spread_sq_sum := s₁.spread_sq_sum + spread * spread
    depth_sum := s₁.depth_sum + (total_depth : ℚ)
    mid_history := s₁.mid_history ++ [mid]
    spread_history := s₁.spread_history ++ [spread]
    depth_history := s₁.depth_history ++ [(total_depth : ℚ)] }
  let n : Nat := s₂.mid_history.length
  if n = 0 then s₂
  else
    let avg_mid := s₂.mid_sum / (n : ℚ)
    let avg_spread := s₂.spread_sum / (n : ℚ)
    let avg_depth := s₂.depth_sum / (n : ℚ)
    let mid_variance := s₂.mid_sq_sum / (n : ℚ) - avg_mid * avg_mid
    let price_velocity :=
      if 10 ≤ n then (mid - s₂.mid_history.getD (n - 10) 0) / 10 else 0
    let imbalance :=
      if 0 < total_depth then ((bid_depth - ask_depth : Int) : ℚ) / (total_depth : ℚ) else 0
    let mid_changes₁ : Nat :=
      match s.last_mid with
      | some lm => if 1/1000 < |mid - lm| then s.mid_changes + 1 else s.mid_changes
      | none => s.mid_changes
    let churn_rate :=
      if s.churn_window ≤ n then min 1 ((mid_changes₁ : ℚ) / (s.churn_window : ℚ)) else 0
    let mid_changes₂ :=
      if s.churn_window ≤ n ∧ n % s.churn_window = 0 then 0 else mid_changes₁
    let doCalibrate := s.calibrated = false ∧ s.calibration_steps ≤ n
    let baseline_spread := if doCalibrate then some avg_spread else s.baseline_spread
    let baseline_depth := if doCalibrate then some avg_depth else s.baseline_depth
    let baseline_mid := if doCalibrate then some avg_mid else s.baseline_mid
    let calibrated := if doCalibrate then true else s.calibrated
    let spread_ratio :=
      if calibrated = true then
        if 0 < baseline_spread.getD 0 then spread / baseline_spread.getD 0 else 1
      else 1
    let depth_ratio :=
      if calibrated = true then
        if 0 < baseline_depth.getD 0 then (total_depth : ℚ) / baseline_depth.getD 0 else 1
      else 1
    { s₂ with
      mid_variance := mid_variance
      price_velocity := price_velocity
      imbalance := imbalance
      churn_rate := churn_rate
      last_mid := some mid
      mid_changes := mid_changes₂
      baseline_spread := baseline_spread
      baseline_depth := baseline_depth
      baseline_mid := baseline_mid
      calibrated := calibrated
      spread_ratio := spread_ratio
      depth_ratio := depth_ratio }

/-- Feed a list of observations to a metrics state, one `update` each. -/
def IncrementalMetrics.runFrom (s : IncrementalMetrics) (inputs : List MInput) :
    IncrementalMetrics :=
  inputs.foldl (fun t x => t.update x.mid x.spread x.bid_depth x.ask_depth) s

/-- Feed a list of observations to a freshly constructed default metrics
instance, as `StrategyRouter.__init__` does (`IncrementalMetrics()`). -/
def IncrementalMetrics.run (inputs : List MInput) : IncrementalMetrics :=
  IncrementalMetrics.runFrom (IncrementalMetrics.init 100 100) inputs

/-- The mid prices of a list of observations, in feed order. -/
def midsOf (inputs : List MInput) : List ℚ :=
  inputs.map MInput.mid

/-- The last `W` elements of a list: the contents a `deque` with
`maxlen = W` holds after the list has been appended element by element. -/
def windowOf (W : Nat) (l : List ℚ) : List ℚ :=
  l.drop (l.length - W)

/-- The six regime labels of `RegimeClassifier` in
`src/strategies/classifier.py` (string constants in the source). -/
inductive Regime where
  | CALIBRATING
  | NORMAL
  | STRESSED
  | CRASH
  | HFT
  | RECOVERY
deriving DecidableEq, Repr

/-- The mutable state of `RegimeClassifier`. -/
structure RegimeClassifier where
  current_regime : Regime
  previous_regime : Regime
  regime_duration : Nat
  crash_cooldown : Int
deriving DecidableEq, Repr

/-- `RegimeClassifier.__init__`. -/
def RegimeClassifier.init : RegimeClassifier :=
  { current_regime := Regime.CALIBRATING
    previous_regime := Regime.CALIBRATING
    regime_duration := 0
    crash_cooldown := 0 }

/-- The `is_crash` condition of `classify` (decimal constants written as
exact fractions): any single signal past its crash threshold, or any of
the three compound pairs of moderately elevated signals. -/
def isCrashSignal (m : IncrementalMetrics) : Prop :=
  2 < m.spread_ratio ∨
  10/100 < |m.price_velocity| ∨
  5/10 < |m.imbalance| ∨
  (18/10 < m.spread_ratio ∧ 6/100 < |m.price_velocity|) ∨
  (18/10 < m.spread_ratio ∧ 4/10 < |m.imbalance|) ∨
  (8/100 < |m.price_velocity| ∧ 45/100 < |m.imbalance|)

instance (m : IncrementalMetrics) : Decidable (isCrashSignal m) := by
  unfold isCrashSignal
  infer_instance

/-- The STRESSED stay condition used when the classifier is already
STRESSED (exit threshold `STRESSED_EXIT = 1.2`). -/
def stressedStayCond (m : IncrementalMetrics) : Prop :=
  12/10 < m.spread_ratio ∨ 3/10 < |m.imbalance| ∨ m.depth_ratio < 6/10

instance (m : IncrementalMetrics) : Decidable (stressedStayCond m) := by
  unfold stressedStayCond
  infer_instance

/-- The STRESSED entry condition used when coming from any calmer state. -/
def stressedEnterCond (m : IncrementalMetrics) : Prop :=
  15/10 < m.spread_ratio ∨ 4/10 < |m.imbalance| ∨ m.depth_ratio < 5/10

instance (m : IncrementalMetrics) : Decidable (stressedEnterCond m) := by
  unfold stressedEnterCond
  infer_instance

/-- The `stable_enough` condition of the HFT branch. -/
def hftStableCond (m : IncrementalMetrics) : Prop :=
  m.spread_ratio < 16/10 ∧ 4/10 < m.depth_ratio ∧ |m.price_velocity| < 8/100

instance (m : IncrementalMetrics) : Decidable (hftStableCond m) := by
  unfold hftStableCond
  infer_instance

/-- The regime and crash-cooldown chosen by the `if`/`elif` chain of
`classify` once the market is calibrated.  `prev` is
`self.previous_regime` after the assignment at the top of `classify`,
which equals the old `self.current_regime` (every comparison in the chain
reads one of those two names, and at that point they coincide).
`HFT_ENTER = 0.20`, `HFT_EXIT = 0.12`. -/
def RegimeClassifier.nextRegime (c : RegimeClassifier) (m : IncrementalMetrics) :
    Regime × Int :=
  let prev := c.current_regime
  if isCrashSignal m then (Regime.CRASH, 0)
  else if prev = Regime.CRASH ∧ m.spread_ratio < 18/10 then (Regime.RECOVERY, 100)
  else if prev = Regime.RECOVERY then
    let cd := c.crash_cooldown - 1
    if cd ≤ 0 ∧ m.spread_ratio < 15/10 then (Regime.NORMAL, cd)
    else (Regime.RECOVERY, cd)
  else if prev = Regime.STRESSED then
    if stressedStayCond m then (Regime.STRESSED, c.crash_cooldown)
    else (Regime.NORMAL, c.crash_cooldown)
  else if stressedEnterCond m then (Regime.STRESSED, c.crash_cooldown)
  else if prev = Regime.HFT then
    if hftStableCond m ∧ 12/100 ≤ m.churn_rate then (Regime.HFT, c.crash_cooldown)
    else (Regime.NORMAL, c.crash_cooldown)
  else
    if hftStableCond m ∧ 20/100 ≤ m.churn_rate then (Regime.HFT, c.crash_cooldown)
    else (Regime.NORMAL, c.crash_cooldown)

/-- `RegimeClassifier.classify` from `src/strategies/classifier.py`
(lines 29 to 118): returns the updated classifier state and the regime
string the method returns.  When the metrics are not calibrated the
method returns early with CALIBRATING, before the duration bookkeeping. -/
def RegimeClassifier.classify (c : RegimeClassifier) (m : IncrementalMetrics) :
    RegimeClassifier × Regime :=
  let prev := c.current_regime
  if m.calibrated = false then
    ({ c with previous_regime := prev, current_regime := Regime.CALIBRATING },
     Regime.CALIBRATING)
  else
    let nc := c.nextRegime m
    let duration : Nat := if nc.1 = prev then c.regime_duration + 1 else 0
    ({ current_regime := nc.1
       previous_regime := prev
       regime_duration := duration
       crash_cooldown := nc.2 }, nc.1)

/-- The position-tracking state of `TradingBot` in
`src/student_algorithm.py` that `_on_order_response` reads and writes:
`inventory`, `cash_flow`, `pnl`, `last_mid`, the `order_send_times` dict
(an association list here), `fill_latencies` and `open_orders`. -/
structure TradingBotState where
  inventory : Int
  cash_flow : ℚ
  pnl : ℚ
  last_mid : ℚ
  order_send_times : List (String × ℚ)
  fill_latencies : List ℚ
  open_orders : Int
deriving DecidableEq, Repr

/-- A FILL message on the order channel: fields order_id, side, price,
qty.  The source compares the side string against BUY and treats
everything else as a sell, and the only other side the exchange sends is
SELL, so the side is embedded as `Side`. -/
structure Fill where
  order_id : String
  side : Side
  price : ℚ
  qty : Int
deriving DecidableEq, Repr

/-- The FILL branch of `TradingBot._on_order_response` from
`src/student_algorithm.py` (lines 523 to 546): latency bookkeeping only
when the order id is known, then the unconditional inventory, cash-flow,
pnl and open-order updates. -/
def TradingBot.onFill (s : TradingBotState) (f : Fill) (recv_time : ℚ) :
    TradingBotState :=
  let s₁ :=
    match s.order_send_times.lookup f.order_id with
    | some t =>
      { s with
        fill_latencies := s.fill_latencies ++ [(recv_time - t) * 1000]
        order_send_times := s.order_send_times.filter (fun p => p.1 != f.order_id) }
    | none => s
  let inventory : Int :=
    match f.side with
    | Side.BUY => s.inventory + f.qty
    | Side.SELL => s.inventory - f.qty
  let cash_flow : ℚ :=
    match f.side with
    | Side.BUY => s.cash_flow - (f.qty : ℚ) * f.price
    | Side.SELL => s.cash_flow + (f.qty : ℚ) * f.price
  { s₁ with
    inventory := inventory
    cash_flow := cash_flow
    pnl := cash_flow + (inventory : ℚ) * s.last_mid
    open_orders := max 0 (s.open_orders - 1) }

/-- Modelled from the spec: an `OrderRecord` of the OrderLifecycleManager
(section 3 of the spec), which has no implementation under `src/`. -/
structure OrderRecord where
  id : String
  side : Side
  price : ℚ
  qty : Int
  submittedStep : Nat
deriving DecidableEq, Repr

/-- Modelled from the spec: the `OpenOrderBook` of the
OrderLifecycleManager, two mappings (buy side, sell side) from order id to
record, embedded as two lists of records. -/
structure OpenOrderBook where
  buys : List OrderRecord
  sells : List OrderRecord
deriving DecidableEq, Repr

/-- Modelled from the spec: the number of resting orders. -/
def OpenOrderBook.restingCount (b : OpenOrderBook) : Nat :=
  b.buys.length + b.sells.length

/-- Modelled from the spec: the self-cross prevention step of
`submit(order)` — a BUY at price P cancels every resting SELL priced ≤ P
and removes it from the sell map; a SELL at price P cancels every resting
BUY priced ≥ P. -/
def OpenOrderBook.crossCancel (b : OpenOrderBook) (o : OrderRecord) : OpenOrderBook :=
  match o.side with
  | Side.BUY => { b with sells := b.sells.filter (fun r => decide (o.price < r.price)) }
  | Side.SELL => { b with buys := b.buys.filter (fun r => decide (r.price < o.price)) }

/-- Ordering of resting orders by submission step (oldest first). -/
def stepLE (x y : OrderRecord) : Bool :=
  decide (x.submittedStep ≤ y.submittedStep)

/-- Modelled from the spec: the `N` oldest resting orders
(oldest-by-submission-step) of a book. -/
def OpenOrderBook.oldestN (b : OpenOrderBook) (N : Nat) : List OrderRecord :=
  ((b.buys ++ b.sells).mergeSort stepLE).take N

/-- Modelled from the spec: cancel the `N` oldest resting orders to make
room for a new submission. -/
def OpenOrderBook.cancelOldest (b : OpenOrderBook) (N : Nat) : OpenOrderBook :=
  let olds := b.oldestN N
  { buys := b.buys.filter (fun r => decide (r ∉ olds))
    sells := b.sells.filter (fun r => decide (r ∉ olds)) }

/-- Modelled from the spec: `submit(order)` of the OrderLifecycleManager
(spec section 4.5), which has no implementation under `src/`.  Before
sending, cancel every resting order on the opposite side whose price
would be crossed by the new order; if the resting-order count has reached
the configured cap, cancel the oldest `N` resting orders; then accept the
new order into its side map. -/
def OpenOrderBook.submit (cap N : Nat) (b : OpenOrderBook) (o : OrderRecord) :
    OpenOrderBook :=
  let b₁ := b.crossCancel o
  let b₂ := if cap ≤ b₁.restingCount then b₁.cancelOldest N else b₁
  match o.side with
  | Side.BUY => { b₂ with buys := o :: b₂.buys }
  | Side.SELL => { b₂ with sells := o :: b₂.sells }

/-- Per-step mid-change flags of a mid price series: entry `k` is whether
the mid moved by more than the epsilon 0.001 at update step `k + 2`
(1-based steps; step 1 has no previous mid). -/
def changeFlags : List ℚ → List Bool
  | [] => []
  | [_] => []
  | a :: b :: rest => decide (1/1000 < |b - a|) :: changeFlags (b :: rest)

/-- The last update step strictly before step `N` at which `update` reset
the `_mid_changes` counter (0 when none): resets happen at every step
whose window length `min(step, 100)` is at least 20 and divisible by 20,
so at steps 20, 40, 60, 80 and at every step from 100 on. -/
def lastResetStep (N : Nat) : Nat :=
  if N ≤ 100 then 20 * ((N - 1) / 20) else N - 1

/-- The last update step up to and including `N` at which the counter was
reset (0 when none). -/
def postResetStep (N : Nat) : Nat :=
  if N ≤ 100 then 20 * (N / 20) else N

/-- Number of mid changes in the steps after `lastResetStep` up to the
final step: the counter value `update` divides by 20 at the final step. -/
def displayedChanges (mids : List ℚ) : Nat :=
  ((changeFlags mids).drop (lastResetStep mids.length - 1)).count true

/-- Number of mid changes after the last reset, including the reset at
the final step if there is one: the counter value stored after the final
step. -/
def storedChanges (mids : List ℚ) : Nat :=
  ((changeFlags mids).drop (postResetStep mids.length - 1)).count true

/-- The churn rate the source actually computes, recomputed naively from
the whole mid series: `min(1, c / 20)` with `c` the number of mid changes
since the last counter reset, and 0 before 20 samples. -/
def churnSpec (mids : List ℚ) : ℚ :=
  if 20 ≤ mids.length then min 1 ((displayedChanges mids : ℚ) / 20) else 0

/-- The churn value claim C2 asserts, written from the claim: the
fraction of the last 20 update steps in which the mid price changed by
more than the epsilon 0.001 relative to the previous step, capped at 1. -/
def claimedChurn (mids : List ℚ) : ℚ :=
  min 1 ((((changeFlags mids).reverse.take 20).count true : ℚ) / 20)

/-- The flag `changeFlags` appends when one more mid `m` arrives after the
series `l`: empty when `l` is empty (the first step has no previous mid). -/
def newFlag (l : List ℚ) (m : ℚ) : List Bool :=
  match l.getLast? with
  | none => []
  | some a => [decide (1/1000 < |m - a|)]

/-- Characterization of every state reachable by feeding `inputs` to a
default `IncrementalMetrics` instance: the configuration is constant, each
window holds the last 100 fed values, each running sum equals the sum of
its window, calibration happens exactly at 100 samples, and the churn
fields match their naive recomputation from the whole mid series. -/
def MetricsInv (inputs : List MInput) (s : IncrementalMetrics) : Prop :=
  s.window_size = 100 ∧
  s.calibration_steps = 100 ∧
  s.churn_window = 20 ∧
  s.mid_history = windowOf 100 (midsOf inputs) ∧
  s.spread_history = windowOf 100 (inputs.map MInput.spread) ∧
  s.depth_history = windowOf 100 (inputs.map (fun x => ((x.bid_depth + x.ask_depth : Int) : ℚ))) ∧
  s.mid_sum = s.mid_history.sum ∧
  s.spread_sum = s.spread_history.sum ∧
  s.depth_sum = s.depth_history.sum ∧
  (s.calibrated = true ↔ 100 ≤ inputs.length) ∧
  (s.calibrated = false → s.baseline_spread = none ∧ s.baseline_depth = none ∧ s.baseline_mid = none) ∧
  (s.calibrated = true → s.baseline_spread.isSome = true ∧ s.baseline_depth.isSome = true ∧ s.baseline_mid.isSome = true) ∧
  s.last_mid = (midsOf inputs).getLast? ∧
  s.mid_changes = storedChanges (midsOf inputs) ∧
  s.churn_rate = churnSpec (midsOf inputs)

/-- A concrete 21-step mid series whose mid moves by 1 at every step from
the second on (well above the 0.001 epsilon). -/
def c2Mids : List ℚ :=
  [100, 101, 100, 101, 100, 101, 100, 101, 100, 101,
   100, 101, 100, 101, 100, 101, 100, 101, 100, 101, 100]

/-- The 21 observations feeding `c2Mids` with constant spread 1 and unit
depths. -/
def c2Inputs : List MInput :=
  c2Mids.map (fun m => ⟨m, 1, 1, 1⟩)

/-- A calibrated metrics value sitting between the STRESSED exit threshold
(1.2) and the STRESSED entry threshold (1.5): spread ratio 1.3, all other
signals quiet. -/
def stressedBoundaryMetrics : IncrementalMetrics :=
  { IncrementalMetrics.init 100 100 with calibrated := true, spread_ratio := 13/10 }

/-- A calibrated, stable metrics value whose churn 0.15 lies between the
HFT exit threshold (0.12) and the HFT entry threshold (0.20). -/
def hftBoundaryMetrics : IncrementalMetrics :=
  { IncrementalMetrics.init 100 100 with calibrated := true, churn_rate := 3/20 }

lemma windowOf_length (W : Nat) (l : List ℚ) :
    (windowOf W l).length = min l.length W := by
  simp [windowOf]
  omega

lemma sum_tail_eq (l : List ℚ) (h : l ≠ []) : l.tail.sum = l.sum - l.headI := by
  cases l with
  | nil => exact absurd rfl h
  | cons a t => simp [List.headI]

lemma windowOf_append (l : List ℚ) (m : ℚ) :
    windowOf 100 (l ++ [m]) =
      (if (windowOf 100 l).length = 100 then (windowOf 100 l).tail
       else windowOf 100 l) ++ [m] := by
  rw [windowOf_length]
  by_cases h : 100 ≤ l.length
  · rw [if_pos (by omega)]
    unfold windowOf
    rw [List.length_append, List.length_singleton, List.tail_drop]
    rw [List.drop_append_of_le_length (by omega)]
    congr 2
    omega
  · rw [if_neg (by omega)]
    unfold windowOf
    rw [List.length_append, List.length_singleton]
    rw [List.drop_append_of_le_length (by omega)]
    congr 2
    omega

lemma changeFlags_length (l : List ℚ) : (changeFlags l).length = l.length - 1 := by
  induction l using changeFlags.induct with
  | case1 => simp [changeFlags]
  | case2 a => simp [changeFlags]
  | case3 a b rest ih => simp [changeFlags, ih]

lemma changeFlags_append (l : List ℚ) (m : ℚ) :
    changeFlags (l ++ [m]) = changeFlags l ++ newFlag l m := by
  induction l using changeFlags.induct with
  | case1 => simp [changeFlags, newFlag]
  | case2 a => simp [changeFlags, newFlag]
  | case3 a b rest ih =>
    simp only [List.cons_append] at ih ⊢
    rw [changeFlags, changeFlags, ih]
    simp only [newFlag, List.getLast?_cons_cons, List.cons_append]

lemma update_mid_history (s : IncrementalMetrics) (m sp : ℚ) (bd ad : Int) :
    (s.update m sp bd ad).mid_history = s.evictOldest.mid_history ++ [m] := by
  simp only [IncrementalMetrics.update]
  rw [if_neg (by simp)]

lemma update_mid_sum (s : IncrementalMetrics) (m sp : ℚ) (bd ad : Int) :
    (s.update m sp bd ad).mid_sum = s.evictOldest.mid_sum + m := by
  simp only [IncrementalMetrics.update]
  rw [if_neg (by simp)]

lemma update_last_mid (s : IncrementalMetrics) (m sp : ℚ) (bd ad : Int) :
    (s.update m sp bd ad).last_mid = some m := by
  simp only [IncrementalMetrics.update]
  rw [if_neg (by simp)]

lemma update_spread_history (s : IncrementalMetrics) (m sp : ℚ) (bd ad : Int) :
    (s.update m sp bd ad).spread_history = s.evictOldest.spread_history ++ [sp] := by
  simp only [IncrementalMetrics.update]
  rw [if_neg (by simp)]

lemma update_depth_history (s : IncrementalMetrics) (m sp : ℚ) (bd ad : Int) :
    (s.update m sp bd ad).depth_history
      = s.evictOldest.depth_history ++ [((bd + ad : Int) : ℚ)] := by
  simp only [IncrementalMetrics.update]
  rw [if_neg (by simp)]

lemma update_spread_sum (s : IncrementalMetrics) (m sp : ℚ) (bd ad : Int) :
    (s.update m sp bd ad).spread_sum = s.evictOldest.spread_sum + sp := by
  simp only [IncrementalMetrics.update]
  rw [if_neg (by simp)]

lemma update_depth_sum (s : IncrementalMetrics) (m sp : ℚ) (bd ad : Int) :
    (s.update m sp bd ad).depth_sum = s.evictOldest.depth_sum + ((bd + ad : Int) : ℚ) := by
  simp only [IncrementalMetrics.update]
  rw [if_neg (by simp)]

lemma update_window_size (s : IncrementalMetrics) (m sp : ℚ) (bd ad : Int) :
    (s.update m sp bd ad).window_size = s.window_size := by
  simp only [IncrementalMetrics.update]
  split
  · simp [IncrementalMetrics.evictOldest]
    split <;> rfl
  · simp [IncrementalMetrics.evictOldest]
    split <;> rfl

lemma update_calibration_steps (s : IncrementalMetrics) (m sp : ℚ) (bd ad : Int) :
    (s.update m sp bd ad).calibration_steps = s.calibration_steps := by
  simp only [IncrementalMetrics.update]
  split
  · simp [IncrementalMetrics.evictOldest]
    split <;> rfl
  · simp [IncrementalMetrics.evictOldest]
    split <;> rfl

lemma update_churn_window (s : IncrementalMetrics) (m sp : ℚ) (bd ad : Int) :
    (s.update m sp bd ad).churn_window = s.churn_window := by
  simp only [IncrementalMetrics.update]
  split
  · simp [IncrementalMetrics.evictOldest]
    split <;> rfl
  · simp [IncrementalMetrics.evictOldest]
    split <;> rfl

lemma update_calibrated (s : IncrementalMetrics) (m sp : ℚ) (bd ad : Int) :
    (s.update m sp bd ad).calibrated =
      (if s.calibrated = false ∧
          s.calibration_steps ≤ (s.evictOldest.mid_history ++ [m]).length
       then true else s.calibrated) := by
  simp only [IncrementalMetrics.update]
  rw [if_neg (by simp)]

lemma update_baseline_spread (s : IncrementalMetrics) (m sp : ℚ) (bd ad : Int) :
    (s.update m sp bd ad).baseline_spread =
      (if s.calibrated = false ∧
          s.calibration_steps ≤ (s.evictOldest.mid_history ++ [m]).length
       then some ((s.evictOldest.spread_sum + sp)
                    / (((s.evictOldest.mid_history ++ [m]).length : Nat) : ℚ))
       else s.baseline_spread) := by
  simp only [IncrementalMetrics.update]
  rw [if_neg (by simp)]

lemma update_baseline_depth (s : IncrementalMetrics) (m sp : ℚ) (bd ad : Int) :
    (s.update m sp bd ad).baseline_depth =
      (if s.calibrated = false ∧
          s.calibration_steps ≤ (s.evictOldest.mid_history ++ [m]).length
       then some ((s.evictOldest.depth_sum + ((bd + ad : Int) : ℚ))
                    / (((s.evictOldest.mid_history ++ [m]).length : Nat) : ℚ))
       else s.baseline_depth) := by
  simp only [IncrementalMetrics.update]
  rw [if_neg (by simp)]

lemma update_baseline_mid (s : IncrementalMetrics) (m sp : ℚ) (bd ad : Int) :
    (s.update m sp bd ad).baseline_mid =
      (if s.calibrated = false ∧
          s.calibration_steps ≤ (s.evictOldest.mid_history ++ [m]).length
       then some ((s.evictOldest.mid_sum + m)
                    / (((s.evictOldest.mid_history ++ [m]).length : Nat) : ℚ))
       else s.baseline_mid) := by
  simp only [IncrementalMetrics.update]
  rw [if_neg (by simp)]

lemma update_mid_changes (s : IncrementalMetrics) (m sp : ℚ) (bd ad : Int) :
    (s.update m sp bd ad).mid_changes =
      (let n := (s.evictOldest.mid_history ++ [m]).length
       let c1 : Nat :=
         match s.last_mid with
         | some lm => if 1/1000 < |m - lm| then s.mid_changes + 1 else s.mid_changes
         | none => s.mid_changes
       if s.churn_window ≤ n ∧ n % s.churn_window = 0 then 0 else c1) := by
  simp only [IncrementalMetrics.update]
  rw [if_neg (by simp)]

lemma update_churn_rate (s : IncrementalMetrics) (m sp : ℚ) (bd ad : Int) :
    (s.update m sp bd ad).churn_rate =
      (let n := (s.evictOldest.mid_history ++ [m]).length
       let c1 : Nat :=
         match s.last_mid with
         | some lm => if 1/1000 < |m - lm| then s.mid_changes + 1 else s.mid_changes
         | none => s.mid_changes
       if s.churn_window ≤ n then min 1 ((c1 : ℚ) / (s.churn_window : ℚ)) else 0) := by
  simp only [IncrementalMetrics.update]
  rw [if_neg (by simp)]

lemma evict_mid_history (s : IncrementalMetrics) :
    s.evictOldest.mid_history =
      (if s.mid_history.length = s.window_size then s.mid_history.tail
       else s.mid_history) := by
  unfold IncrementalMetrics.evictOldest
  split <;> rfl

lemma evict_spread_history (s : IncrementalMetrics) :
    s.evictOldest.spread_history =
      (if s.mid_history.length = s.window_size then s.spread_history.tail
       else s.spread_history) := by
  unfold IncrementalMetrics.evictOldest
  split <;> rfl

lemma evict_depth_history (s : IncrementalMetrics) :
    s.evictOldest.depth_history =
      (if s.mid_history.length = s.window_size then s.depth_history.tail
       else s.depth_history) := by
  unfold IncrementalMetrics.evictOldest
  split <;> rfl

lemma evict_mid_sum (s : IncrementalMetrics) :
    s.evictOldest.mid_sum =
      (if s.mid_history.length = s.window_size then s.mid_sum - s.mid_history.headI
       else s.mid_sum) := by
  unfold IncrementalMetrics.evictOldest
  split <;> rfl

lemma evict_spread_sum (s : IncrementalMetrics) :
    s.evictOldest.spread_sum =
      (if s.mid_history.length = s.window_size then s.spread_sum - s.spread_history.headI
       else s.spread_sum) := by
  unfold IncrementalMetrics.evictOldest
  split <;> rfl

lemma evict_depth_sum (s : IncrementalMetrics) :
    s.evictOldest.depth_sum =
      (if s.mid_history.length = s.window_size then s.depth_sum - s.depth_history.headI
       else s.depth_sum) := by
  unfold IncrementalMetrics.evictOldest
  split <;> rfl

lemma lastResetStep_succ (N : Nat) : lastResetStep (N + 1) = postResetStep N := by
  unfold lastResetStep postResetStep
  split <;> split <;> omega

lemma postResetStep_le (N : Nat) : postResetStep N ≤ N := by
  unfold postResetStep
  split <;> omega

lemma postResetStep_eq_of_reset (N : Nat)
    (h : 20 ≤ min (N + 1) 100 ∧ min (N + 1) 100 % 20 = 0) :
    postResetStep (N + 1) = N + 1 := by
  unfold postResetStep
  split <;> omega

lemma postResetStep_eq_lastResetStep_of_not_reset (N : Nat)
    (h : ¬(20 ≤ min (N + 1) 100 ∧ min (N + 1) 100 % 20 = 0)) :
    postResetStep (N + 1) = lastResetStep (N + 1) := by
  unfold postResetStep lastResetStep
  split <;> omega

lemma displayedChanges_append (mids : List ℚ) (m : ℚ) :
    displayedChanges (mids ++ [m])
      = storedChanges mids + (newFlag mids m).count true := by
  unfold displayedChanges storedChanges
  rw [List.length_append, List.length_singleton, lastResetStep_succ, changeFlags_append]
  rw [List.drop_append_of_le_length (by rw [changeFlags_length]; have := postResetStep_le mids.length; omega)]
  rw [List.count_append]

lemma storedChanges_append_reset (mids : List ℚ) (m : ℚ)
    (h : 20 ≤ min (mids.length + 1) 100 ∧ min (mids.length + 1) 100 % 20 = 0) :
    storedChanges (mids ++ [m]) = 0 := by
  unfold storedChanges
  rw [List.length_append, List.length_singleton, postResetStep_eq_of_reset _ h]
  rw [List.drop_eq_nil_of_le (by rw [changeFlags_length]; simp)]
  rfl

lemma storedChanges_append_noreset (mids : List ℚ) (m : ℚ)
    (h : ¬(20 ≤ min (mids.length + 1) 100 ∧ min (mids.length + 1) 100 % 20 = 0)) :
    storedChanges (mids ++ [m]) = displayedChanges (mids ++ [m]) := by
  unfold storedChanges displayedChanges
  rw [List.length_append, List.length_singleton,
      postResetStep_eq_lastResetStep_of_not_reset _ h]

lemma metricsInv_step (inputs : List MInput) (s : IncrementalMetrics) (x : MInput)
    (h : MetricsInv inputs s) :
    MetricsInv (inputs ++ [x]) (s.update x.mid x.spread x.bid_depth x.ask_depth) := by
  obtain ⟨hw, hcs, hcw, hmh, hsh, hdh, hms, hss, hds, hcal, hbnone, hbsome, hlm, hmc, hcr⟩ := h
  have hmids : midsOf (inputs ++ [x]) = midsOf inputs ++ [x.mid] := by simp [midsOf]
  have hsps : (inputs ++ [x]).map MInput.spread
      = inputs.map MInput.spread ++ [x.spread] := by simp
  have hdps : (inputs ++ [x]).map (fun y => ((y.bid_depth + y.ask_depth : Int) : ℚ))
      = inputs.map (fun y => ((y.bid_depth + y.ask_depth : Int) : ℚ))
        ++ [((x.bid_depth + x.ask_depth : Int) : ℚ)] := by simp
  have hmlen : (midsOf inputs).length = inputs.length := by simp [midsOf]
  have hsplen : (inputs.map MInput.spread).length = inputs.length := by simp
  have hdplen : (inputs.map (fun y => ((y.bid_depth + y.ask_depth : Int) : ℚ))).length
      = inputs.length := by simp
  have hlen : s.mid_history.length = min inputs.length 100 := by
    rw [hmh, windowOf_length, hmlen]
  have hslen : s.spread_history.length = min inputs.length 100 := by
    rw [hsh, windowOf_length, hsplen]
  have hdlen : s.depth_history.length = min inputs.length 100 := by
    rw [hdh, windowOf_length, hdplen]
  have hfull : (s.mid_history.length = s.window_size) ↔ 100 ≤ inputs.length := by
    rw [hlen, hw]; omega
  have hmne : 100 ≤ inputs.length → s.mid_history ≠ [] := by
    intro hN
    have : s.mid_history.length = 100 := by omega
    intro hnil
    rw [hnil] at this
    simp at this
  have hsne : 100 ≤ inputs.length → s.spread_history ≠ [] := by
    intro hN
    have : s.spread_history.length = 100 := by omega
    intro hnil
    rw [hnil] at this
    simp at this
  have hdne : 100 ≤ inputs.length → s.depth_history ≠ [] := by
    intro hN
    have : s.depth_history.length = 100 := by omega
    intro hnil
    rw [hnil] at this
    simp at this
  have hemid : s.evictOldest.mid_history ++ [x.mid]
      = windowOf 100 (midsOf (inputs ++ [x])) := by
    rw [hmids, windowOf_append, evict_mid_history]
    by_cases hN : 100 ≤ inputs.length
    · rw [if_pos (hfull.mpr hN), if_pos (by rw [windowOf_length, hmlen]; omega), hmh]
    · rw [if_neg (fun c => hN (hfull.mp c)),
          if_neg (by rw [windowOf_length, hmlen]; omega), hmh]
  have hesp : s.evictOldest.spread_history ++ [x.spread]
      = windowOf 100 ((inputs ++ [x]).map MInput.spread) := by
    rw [hsps, windowOf_append, evict_spread_history]
    by_cases hN : 100 ≤ inputs.length
    · rw [if_pos (hfull.mpr hN), if_pos (by rw [windowOf_length, hsplen]; omega), hsh]
    · rw [if_neg (fun c => hN (hfull.mp c)),
          if_neg (by rw [windowOf_length, hsplen]; omega), hsh]
  have hedp : s.evictOldest.depth_history ++ [((x.bid_depth + x.ask_depth : Int) : ℚ)]
      = windowOf 100 ((inputs ++ [x]).map (fun y => ((y.bid_depth + y.ask_depth : Int) : ℚ))) := by
    rw [hdps, windowOf_append, evict_depth_history]
    by_cases hN : 100 ≤ inputs.length
    · rw [if_pos (hfull.mpr hN), if_pos (by rw [windowOf_length, hdplen]; omega), hdh]
    · rw [if_neg (fun c => hN (hfull.mp c)),
          if_neg (by rw [windowOf_length, hdplen]; omega), hdh]
  have hemidsum : s.evictOldest.mid_sum = s.evictOldest.mid_history.sum := by
    rw [evict_mid_sum, evict_mid_history]
    by_cases hN : 100 ≤ inputs.length
    · rw [if_pos (hfull.mpr hN), if_pos (hfull.mpr hN), hms,
          sum_tail_eq _ (hmne hN)]
    · rw [if_neg (fun c => hN (hfull.mp c)), if_neg (fun c => hN (hfull.mp c)), hms]
  have hespsum : s.evictOldest.spread_sum = s.evictOldest.spread_history.sum := by
    rw [evict_spread_sum, evict_spread_history]
    by_cases hN : 100 ≤ inputs.length
    · rw [if_pos (hfull.mpr hN), if_pos (hfull.mpr hN), hss,
          sum_tail_eq _ (hsne hN)]
    · rw [if_neg (fun c => hN (hfull.mp c)), if_neg (fun c => hN (hfull.mp c)), hss]
  have hedpsum : s.evictOldest.depth_sum = s.evictOldest.depth_history.sum := by
    rw [evict_depth_sum, evict_depth_history]
    by_cases hN : 100 ≤ inputs.length
    · rw [if_pos (hfull.mpr hN), if_pos (hfull.mpr hN), hds,
          sum_tail_eq _ (hdne hN)]
    · rw [if_neg (fun c => hN (hfull.mp c)), if_neg (fun c => hN (hfull.mp c)), hds]
  have hnewlen : (s.evictOldest.mid_history ++ [x.mid]).length
      = min (inputs.length + 1) 100 := by
    rw [hemid, windowOf_length, hmids, List.length_append, List.length_singleton, hmlen]
  have hc1 : (match s.last_mid with
      | some lm => if 1/1000 < |x.mid - lm| then s.mid_changes + 1 else s.mid_changes
      | none => s.mid_changes)
      = displayedChanges (midsOf inputs ++ [x.mid]) := by
    rw [displayedChanges_append, hlm, hmc]
    unfold newFlag
    cases hg : (midsOf inputs).getLast? with
    | none => simp
    | some lm =>
      by_cases hp : 1/1000 < |x.mid - lm|
      · simp only [if_pos hp, decide_eq_true hp]
        simp
      · simp only [if_neg hp, decide_eq_false hp]
        simp
  refine ⟨?_, ?_, ?_, ?_, ?_, ?_, ?_, ?_, ?_, ?_, ?_, ?_, ?_, ?_, ?_⟩
  · rw [update_window_size, hw]
  · rw [update_calibration_steps, hcs]
  · rw [update_churn_window, hcw]
  · rw [update_mid_history, hemid]
  · rw [update_spread_history, hesp]
  · rw [update_depth_history, hedp]
  · rw [update_mid_sum, update_mid_history, List.sum_append, hemidsum]
    simp
  · rw [update_spread_sum, update_spread_history, List.sum_append, hespsum]
    simp
  · rw [update_depth_sum, update_depth_history, List.sum_append, hedpsum]
    simp
  · -- calibrated iff
    rw [update_calibrated, hnewlen, hcs, List.length_append, List.length_singleton]
    cases hcb : s.calibrated with
    | false =>
      have hNlt : ¬ 100 ≤ inputs.length := fun c => by
        have := hcal.mpr c
        rw [hcb] at this
        exact Bool.false_ne_true this
      by_cases h2 : 100 ≤ inputs.length + 1
      · rw [if_pos ⟨rfl, by omega⟩]
        simp [h2]
      · rw [if_neg (by intro ⟨_, c⟩; omega)]
        simp
        omega
    | true =>
      have hN : 100 ≤ inputs.length := hcal.mp hcb
      rw [if_neg (by rintro ⟨c, -⟩; exact Bool.false_ne_true c.symm)]
      simp [List.length_append]
      omega
  · -- calibrated false → baselines none
    rw [update_calibrated, update_baseline_spread, update_baseline_depth, update_baseline_mid]
    by_cases hC : s.calibrated = false ∧
        s.calibration_steps ≤ (s.evictOldest.mid_history ++ [x.mid]).length
    · rw [if_pos hC, if_pos hC, if_pos hC, if_pos hC]
      intro c
      simp at c
    · rw [if_neg hC, if_neg hC, if_neg hC, if_neg hC]
      exact hbnone
  · -- calibrated true → baselines some
    rw [update_calibrated, update_baseline_spread, update_baseline_depth, update_baseline_mid]
    by_cases hC : s.calibrated = false ∧
        s.calibration_steps ≤ (s.evictOldest.mid_history ++ [x.mid]).length
    · rw [if_pos hC, if_pos hC, if_pos hC, if_pos hC]
      intro _
      exact ⟨rfl, rfl, rfl⟩
    · rw [if_neg hC, if_neg hC, if_neg hC, if_neg hC]
      exact hbsome
  · rw [update_last_mid, hmids]
    simp
  · -- mid_changes
    rw [update_mid_changes]
    simp only [hcw, hnewlen, hmids]
    rw [hc1]
    by_cases hr : 20 ≤ min (inputs.length + 1) 100 ∧ min (inputs.length + 1) 100 % 20 = 0
    · rw [if_pos hr, storedChanges_append_reset]
      rw [hmlen]
      exact hr
    · rw [if_neg hr, storedChanges_append_noreset]
      rw [hmlen]
      exact hr
  · -- churn_rate
    rw [update_churn_rate]
    simp only [hcw, hnewlen, hmids]
    rw [hc1]
    unfold churnSpec
    rw [List.length_append, List.length_singleton, hmlen]
    by_cases h20 : 20 ≤ inputs.length + 1
    · rw [if_pos (by omega), if_pos h20]
      norm_num
    · rw [if_neg (by omega), if_neg h20]

lemma metricsInv_init : MetricsInv [] (IncrementalMetrics.init 100 100) := by
  refine ⟨rfl, rfl, rfl, rfl, rfl, rfl, rfl, rfl, rfl, ?_, ?_, ?_, rfl, ?_, ?_⟩
  · simp [IncrementalMetrics.init]
  · exact fun _ => ⟨rfl, rfl, rfl⟩
  · intro c
    simp [IncrementalMetrics.init] at c
  · simp [storedChanges, changeFlags, postResetStep, IncrementalMetrics.init]
  · simp [churnSpec, midsOf, IncrementalMetrics.init]

lemma metricsInv_run (inputs : List MInput) :
    MetricsInv inputs (IncrementalMetrics.run inputs) := by
  induction inputs using List.reverseRecOn with
  | nil => exact metricsInv_init
  | append_singleton l x ih =>
    have : IncrementalMetrics.run (l ++ [x])
        = (IncrementalMetrics.run l).update x.mid x.spread x.bid_depth x.ask_depth := by
      simp [IncrementalMetrics.run, IncrementalMetrics.runFrom, List.foldl_append]
    rw [this]
    exact metricsInv_step l _ x ih

lemma update_preserves_calibration (s : IncrementalMetrics) (m sp : ℚ) (bd ad : Int)
    (h : s.calibrated = true) :
    (s.update m sp bd ad).calibrated = true ∧
    (s.update m sp bd ad).baseline_spread = s.baseline_spread ∧
    (s.update m sp bd ad).baseline_depth = s.baseline_depth ∧
    (s.update m sp bd ad).baseline_mid = s.baseline_mid := by
  have hC : ¬(s.calibrated = false ∧
      s.calibration_steps ≤ (s.evictOldest.mid_history ++ [m]).length) := by
    rintro ⟨c, -⟩
    rw [h] at c
    exact Bool.false_ne_true c.symm
  rw [update_calibrated, update_baseline_spread, update_baseline_depth, update_baseline_mid]
  rw [if_neg hC, if_neg hC, if_neg hC, if_neg hC]
  exact ⟨h, rfl, rfl, rfl⟩

lemma runFrom_preserves_calibration (extra : List MInput) (s : IncrementalMetrics)
    (h : s.calibrated = true) :
    (IncrementalMetrics.runFrom s extra).calibrated = true ∧
    (IncrementalMetrics.runFrom s extra).baseline_spread = s.baseline_spread ∧
    (IncrementalMetrics.runFrom s extra).baseline_depth = s.baseline_depth ∧
    (IncrementalMetrics.runFrom s extra).baseline_mid = s.baseline_mid := by
  induction extra generalizing s with
  | nil => exact ⟨h, rfl, rfl, rfl⟩
  | cons y t ih =>
    have hstep : IncrementalMetrics.runFrom s (y :: t)
        = IncrementalMetrics.runFrom (s.update y.mid y.spread y.bid_depth y.ask_depth) t := rfl
    have hu := update_preserves_calibration s y.mid y.spread y.bid_depth y.ask_depth h
    have ht := ih _ hu.1
    rw [hstep]
    exact ⟨ht.1, ht.2.1.trans hu.2.1, ht.2.2.1.trans hu.2.2.1, ht.2.2.2.trans hu.2.2.2⟩

lemma midsOf_c2Inputs : midsOf c2Inputs = c2Mids := by
  simp [midsOf, c2Inputs, c2Mids]

lemma stepLE_trans (a b c : OrderRecord) :
    stepLE a b → stepLE b c → stepLE a c := by
  unfold stepLE
  simp only [decide_eq_true_eq]
  omega

lemma stepLE_total (a b : OrderRecord) : stepLE a b || stepLE b a := by
  unfold stepLE
  simp only [Bool.or_eq_true, decide_eq_true_eq]
  omega

lemma oldestN_le (b : OpenOrderBook) (N : Nat) (r : OrderRecord)
    (hr : r ∈ b.buys ++ b.sells) (hnot : r ∉ b.oldestN N) :
    ∀ x ∈ b.oldestN N, x.submittedStep ≤ r.submittedStep := by
  intro x hx
  have hsorted := List.sorted_mergeSort stepLE_trans stepLE_total (b.buys ++ b.sells)
  have hmem : r ∈ (b.buys ++ b.sells).mergeSort stepLE := List.mem_mergeSort.mpr hr
  rw [← List.take_append_drop N ((b.buys ++ b.sells).mergeSort stepLE)] at hsorted hmem
  obtain ⟨-, -, hcross⟩ := List.pairwise_append.mp hsorted
  have hrdrop : r ∈ ((b.buys ++ b.sells).mergeSort stepLE).drop N := by
    rcases List.mem_append.mp hmem with h | h
    · exact absurd h hnot
    · exact h
  have := hcross x hx r hrdrop
  exact of_decide_eq_true this

lemma submit_mem_of_ne (cap N : Nat) (b : OpenOrderBook) (o : OrderRecord)
    (r : OrderRecord) (hro : r ≠ o)
    (hr : r ∈ (OpenOrderBook.submit cap N b o).buys ∨
          r ∈ (OpenOrderBook.submit cap N b o).sells) :
    (r ∈ (b.crossCancel o).buys ∨ r ∈ (b.crossCancel o).sells) ∧
    (cap ≤ (b.crossCancel o).restingCount → r ∉ (b.crossCancel o).oldestN N) := by
  simp only [OpenOrderBook.submit] at hr
  by_cases hcap : cap ≤ (b.crossCancel o).restingCount
  · rw [if_pos hcap] at hr
    cases ho : o.side <;> rw [ho] at hr <;>
      simp only [List.mem_cons, List.mem_filter,
        OpenOrderBook.cancelOldest, decide_eq_true_eq] at hr
    · rcases hr with (h | h) | h
      · exact absurd h hro
      · exact ⟨Or.inl h.1, fun _ => h.2⟩
      · exact ⟨Or.inr h.1, fun _ => h.2⟩
    · rcases hr with h | (h | h)
      · exact ⟨Or.inl h.1, fun _ => h.2⟩
      · exact absurd h hro
      · exact ⟨Or.inr h.1, fun _ => h.2⟩
  · rw [if_neg hcap] at hr
    cases ho : o.side <;> rw [ho] at hr <;>
      simp only [List.mem_cons] at hr
    · rcases hr with (h | h) | h
      · exact absurd h hro
      · exact ⟨Or.inl h, fun c => absurd c hcap⟩
      · exact ⟨Or.inr h, fun c => absurd c hcap⟩
    · rcases hr with h | (h | h)
      · exact ⟨Or.inl h, fun c => absurd c hcap⟩
      · exact absurd h hro
      · exact ⟨Or.inr h, fun c => absurd c hcap⟩

lemma rq_lower (q : Int) : 100 ≤ round_qty_to_100 q := le_max_left _ _

lemma rq_upper (q : Int) : round_qty_to_100 q ≤ 500 :=
  max_le (by norm_num) (min_le_left _ _)

lemma rq_fixed (q : Int) (hmod : q % 100 = 0) (h1 : 100 ≤ q) (h2 : q ≤ 500) :
    round_qty_to_100 q = q := by
  obtain ⟨k, rfl⟩ := Int.dvd_of_emod_eq_zero hmod
  unfold round_qty_to_100
  rw [Int.mul_fdiv_cancel_left _ (by norm_num)]
  rw [mul_comm, min_eq_right (by omega), max_eq_right (by omega)]

lemma fdiv_eq_floor (q : Int) : q.fdiv 100 = ⌊(q : ℚ) / 100⌋ := by
  rw [Int.fdiv_eq_ediv _ (by norm_num)]
  have := Rat.floor_intCast_div_natCast q 100
  push_cast at this
  rw [this]

/-- Claim C7: for every integer qty the shared helper `round_qty_to_100`
returns max(100, min(500, 100 * floor(qty / 100))), rounding down to the
nearest multiple of 100 and clamping to the interval from 100 to 500; in
particular it maps 150 to 100, 250 to 200, 1000 to 500 and 50 to 100. -/
theorem claim_C7 :
    (∀ qty : Int,
       round_qty_to_100 qty = max 100 (min 500 (100 * ⌊(qty : ℚ) / 100⌋))) ∧
    round_qty_to_100 150 = 100 ∧ round_qty_to_100 250 = 200 ∧
    round_qty_to_100 1000 = 500 ∧ round_qty_to_100 50 = 100 := by
  refine ⟨fun qty => ?_, by decide, by decide, by decide, by decide⟩
  unfold round_qty_to_100
  rw [fdiv_eq_floor, mul_comm]

/-- Claim C1 as stated is false: a candidate BUY of qty 50 at inventory
4400 passes the hard-limit check (4450 < 4500) and is then normalized to
qty 100, so the returned order, filled in full, puts the inventory at
exactly 4500, which is not strictly below the hard limit. -/
theorem claim_C1_counterexample :
    StrategyRouter.applyRiskManagement
        (some ⟨Side.BUY, 1001/10, 50⟩) (999/10) (1001/10) 4400
      = some ⟨Side.BUY, 1001/10, 100⟩ ∧
    StrategyRouter.resultingInventory 4400 ⟨Side.BUY, 1001/10, 100⟩ = 4500 ∧
    ¬ (|(4500 : Int)| < 4500) := by
  refine ⟨?_, by decide, by decide⟩
  norm_num [StrategyRouter.applyRiskManagement, StrategyRouter.resultingInventory,
    StrategyRouter.HARD_LIMIT, round_qty_to_100]
  decide

/-- Claim C1 amended: for every candidate order whose quantity is a
multiple of 100 in the interval from 100 to 500 (the quantities the
normalization rule leaves unchanged) and every inventory strictly inside
the hard limit, any order `_apply_risk_management` returns results, if
filled in full, in an inventory whose absolute value is strictly below
the hard limit 4500. -/
theorem claim_C1 (o : Order) (bid ask : ℚ) (inventory : Int)
    (hmod : o.qty % 100 = 0) (hlo : 100 ≤ o.qty) (hhi : o.qty ≤ 500)
    (hinv : |inventory| < 4500) :
    ∀ r ∈ StrategyRouter.applyRiskManagement (some o) bid ask inventory,
      |StrategyRouter.resultingInventory inventory r| < 4500 := by
  intro r hr
  simp only [StrategyRouter.applyRiskManagement, StrategyRouter.HARD_LIMIT] at hr
  split at hr
  · split at hr
    · simp only [Option.mem_def, Option.some.injEq] at hr
      subst hr
      have h1 := rq_lower (inventory - 3000)
      have h2 := rq_upper (inventory - 3000)
      simp only [StrategyRouter.resultingInventory]
      rw [abs_lt] at hinv ⊢
      omega
    · split at hr
      · simp only [Option.mem_def, Option.some.injEq] at hr
        subst hr
        have h1 := rq_lower (|inventory| - 3000)
        have h2 := rq_upper (|inventory| - 3000)
        simp only [StrategyRouter.resultingInventory]
        rw [abs_lt] at hinv ⊢
        omega
      · simp at hr
  · simp only [Option.mem_def, Option.some.injEq] at hr
    subst hr
    rename_i hok
    rw [not_le] at hok
    rw [rq_fixed _ hmod hlo hhi]
    exact hok

/-- Witness for claim C1 at the instance the claim singles out: a
candidate BUY of qty 500 at inventory 4400 with the hard limit 4500. -/
theorem claim_C1_witness :
    ((500 : Int) % 100 = 0 ∧ (100 : Int) ≤ 500 ∧ (500 : Int) ≤ 500 ∧
     |(4400 : Int)| < 4500) ∧
    ∀ r ∈ StrategyRouter.applyRiskManagement
        (some ⟨Side.BUY, 1001/10, 500⟩) (999/10) (1001/10) 4400,
      |StrategyRouter.resultingInventory 4400 r| < 4500 :=
  ⟨by decide,
   claim_C1 ⟨Side.BUY, 1001/10, 500⟩ (999/10) (1001/10) 4400
     (by decide) (by decide) (by decide) (by decide)⟩

/-- Claim C10: there exist a candidate order and an inventory for which
`_apply_risk_management` returns an order with a strictly larger quantity
than the candidate (a BUY of qty 50 at inventory 0 comes back as qty
100); indeed the normalization applied after the hard-limit check maps
every quantity below 100 up to 100. -/
theorem claim_C10 :
    (∃ (o : Order) (bid ask : ℚ) (inventory : Int) (r : Order),
       StrategyRouter.applyRiskManagement (some o) bid ask inventory = some r ∧
       o.qty < r.qty) ∧
    ∀ q : Int, q < 100 → round_qty_to_100 q = 100 := by
  constructor
  · refine ⟨⟨Side.BUY, 100, 50⟩, 999/10, 1001/10, 0, ⟨Side.BUY, 100, 100⟩, ?_, by decide⟩
    norm_num [StrategyRouter.applyRiskManagement, StrategyRouter.resultingInventory,
      StrategyRouter.HARD_LIMIT, round_qty_to_100]
    decide
  · intro q hq
    have hr : q.fdiv 100 * 100 ≤ q := by
      rw [Int.fdiv_eq_ediv _ (by norm_num)]
      exact Int.ediv_mul_le q (by norm_num)
    unfold round_qty_to_100
    have h1 : min 500 (q.fdiv 100 * 100) ≤ 100 := le_trans (min_le_right _ _) (by omega)
    exact max_eq_left h1

/-- Witness for the universally quantified part of claim C10. -/
theorem claim_C10_witness : (0 : Int) < 100 ∧ round_qty_to_100 0 = 100 :=
  ⟨by decide, claim_C10.2 0 (by decide)⟩

/-- Claim C2 as stated is false: after the 21st update of a mid series
that moves by 1 at every step, every one of the last 20 steps changed the
mid, so the claimed churn (fraction of the last 20 steps with a change,
capped at 1) is 1, but the computed churn_rate is 1/20, because the
change counter was reset when the 20th sample filled the churn window. -/
theorem claim_C2_counterexample :
    20 ≤ c2Inputs.length ∧
    (IncrementalMetrics.run c2Inputs).churn_rate = 1/20 ∧
    claimedChurn (midsOf c2Inputs) = 1 ∧
    (IncrementalMetrics.run c2Inputs).churn_rate ≠ claimedChurn (midsOf c2Inputs) := by
  obtain ⟨-, -, -, -, -, -, -, -, -, -, -, -, -, -, h15⟩ := metricsInv_run c2Inputs
  rw [h15, midsOf_c2Inputs]
  have h1 : churnSpec c2Mids = 1/20 := by
    norm_num [churnSpec, c2Mids, displayedChanges, lastResetStep, changeFlags]
  have h2 : claimedChurn c2Mids = 1 := by
    norm_num [claimedChurn, c2Mids, changeFlags]
  refine ⟨by norm_num [c2Inputs, c2Mids], h1, h2, ?_⟩
  rw [h1, h2]
  norm_num

/-- Claim C2 amended: after every update sequence, churn_rate equals
min(1, c / 20) where c is the number of update steps since the most
recent counter reset in which the mid changed by more than 0.001 relative
to the previous step, the counter being reset at every update whose
window length min(samples, 100) is at least 20 and divisible by 20 (so at
samples 20, 40, 60, 80, and at every update once the window is full); it
is 0 before 20 samples.  `churnSpec` recomputes this naively from the
whole mid series. -/
theorem claim_C2 (inputs : List MInput) :
    (IncrementalMetrics.run inputs).churn_rate = churnSpec (midsOf inputs) := by
  obtain ⟨-, -, -, -, -, -, -, -, -, -, -, -, -, -, h15⟩ := metricsInv_run inputs
  exact h15

/-- Claim C3: after every update sequence the incremental O(1) running
sums equal the sums of the values currently stored in their windows, and
hence the running mean mid_sum / len(mid_history) equals the arithmetic
mean of the mid window, in exact arithmetic, after arbitrarily many
evictions. -/
theorem claim_C3 (inputs : List MInput) :
    (IncrementalMetrics.run inputs).mid_sum
      = (IncrementalMetrics.run inputs).mid_history.sum ∧
    (IncrementalMetrics.run inputs).spread_sum
      = (IncrementalMetrics.run inputs).spread_history.sum ∧
    (IncrementalMetrics.run inputs).depth_sum
      = (IncrementalMetrics.run inputs).depth_history.sum ∧
    (IncrementalMetrics.run inputs).mid_sum
        / ((IncrementalMetrics.run inputs).mid_history.length : ℚ)
      = (IncrementalMetrics.run inputs).mid_history.sum
          / ((IncrementalMetrics.run inputs).mid_history.length : ℚ) := by
  obtain ⟨-, -, -, -, -, -, h7, h8, h9, -, -, -, -, -, -⟩ := metricsInv_run inputs
  exact ⟨h7, h8, h9, by rw [h7]⟩

/-- Claim C4: with the default configuration (window size and calibration
steps both 100), calibrated becomes true exactly when the sample count
reaches 100, the baselines are unset before that update and set on it,
and no subsequent update changes any baseline field or resets
calibrated. -/
theorem claim_C4 (inputs extra : List MInput) :
    ((IncrementalMetrics.run inputs).calibrated = true ↔ 100 ≤ inputs.length) ∧
    (inputs.length < 100 →
       (IncrementalMetrics.run inputs).baseline_spread = none ∧
       (IncrementalMetrics.run inputs).baseline_depth = none ∧
       (IncrementalMetrics.run inputs).baseline_mid = none) ∧
    (100 ≤ inputs.length →
       (IncrementalMetrics.run inputs).baseline_spread.isSome = true ∧
       (IncrementalMetrics.run inputs).baseline_depth.isSome = true ∧
       (IncrementalMetrics.run inputs).baseline_mid.isSome = true ∧
       (IncrementalMetrics.runFrom (IncrementalMetrics.run inputs) extra).baseline_spread
         = (IncrementalMetrics.run inputs).baseline_spread ∧
       (IncrementalMetrics.runFrom (IncrementalMetrics.run inputs) extra).baseline_depth
         = (IncrementalMetrics.run inputs).baseline_depth ∧
       (IncrementalMetrics.runFrom (IncrementalMetrics.run inputs) extra).baseline_mid
         = (IncrementalMetrics.run inputs).baseline_mid ∧
       (IncrementalMetrics.runFrom (IncrementalMetrics.run inputs) extra).calibrated = true) := by
  obtain ⟨-, -, -, -, -, -, -, -, -, h10, h11, h12, -, -, -⟩ := metricsInv_run inputs
  refine ⟨h10, ?_, ?_⟩
  · intro hlt
    apply h11
    cases hcb : (IncrementalMetrics.run inputs).calibrated with
    | false => rfl
    | true => exact absurd (h10.mp hcb) (by omega)
  · intro hge
    have hcb : (IncrementalMetrics.run inputs).calibrated = true := h10.mpr hge
    obtain ⟨b1, b2, b3⟩ := h12 hcb
    obtain ⟨p1, p2, p3, p4⟩ := runFrom_preserves_calibration extra _ hcb
    exact ⟨b1, b2, b3, p2, p3, p4, p1⟩

/-- Witness for claim C4: 100 constant snapshots calibrate the metrics,
one further snapshot changes no baseline, and 5 snapshots leave the
baselines unset. -/
theorem claim_C4_witness :
    100 ≤ (List.replicate 100 (⟨100, 1, 1, 1⟩ : MInput)).length ∧
    (IncrementalMetrics.runFrom
        (IncrementalMetrics.run (List.replicate 100 (⟨100, 1, 1, 1⟩ : MInput)))
        [⟨101, 1, 1, 1⟩]).baseline_mid
      = (IncrementalMetrics.run (List.replicate 100 (⟨100, 1, 1, 1⟩ : MInput))).baseline_mid ∧
    (IncrementalMetrics.runFrom
        (IncrementalMetrics.run (List.replicate 100 (⟨100, 1, 1, 1⟩ : MInput)))
        [⟨101, 1, 1, 1⟩]).calibrated = true ∧
    (List.replicate 5 (⟨100, 1, 1, 1⟩ : MInput)).length < 100 ∧
    (IncrementalMetrics.run (List.replicate 5 (⟨100, 1, 1, 1⟩ : MInput))).baseline_mid = none := by
  refine ⟨by simp, ?_, ?_, by simp, ?_⟩
  · exact ((claim_C4 (List.replicate 100 ⟨100, 1, 1, 1⟩) [⟨101, 1, 1, 1⟩]).2.2
      (by simp)).2.2.2.2.2.1
  · exact ((claim_C4 (List.replicate 100 ⟨100, 1, 1, 1⟩) [⟨101, 1, 1, 1⟩]).2.2
      (by simp)).2.2.2.2.2.2
  · exact ((claim_C4 (List.replicate 5 ⟨100, 1, 1, 1⟩) []).2.1 (by simp)).2.2

/-- Claim C5: for every classifier state and every metrics value,
`classify` returns one of the six defined regime labels, and whenever the
metrics are not calibrated it returns CALIBRATING, so CRASH is never
emitted before calibration. -/
theorem claim_C5 (c : RegimeClassifier) (m : IncrementalMetrics) :
    ((c.classify m).2 = Regime.CALIBRATING ∨ (c.classify m).2 = Regime.NORMAL ∨
     (c.classify m).2 = Regime.STRESSED ∨ (c.classify m).2 = Regime.CRASH ∨
     (c.classify m).2 = Regime.HFT ∨ (c.classify m).2 = Regime.RECOVERY) ∧
    (m.calibrated = false → (c.classify m).2 = Regime.CALIBRATING) := by
  constructor
  · cases h : (c.classify m).2 <;> simp
  · intro hnc
    simp only [RegimeClassifier.classify]
    rw [if_pos hnc]

/-- Witness for claim C5 at the initial classifier state and an
uncalibrated default metrics instance. -/
theorem claim_C5_witness :
    (IncrementalMetrics.init 100 100).calibrated = false ∧
    ((RegimeClassifier.init).classify (IncrementalMetrics.init 100 100)).2
      = Regime.CALIBRATING :=
  ⟨rfl, (claim_C5 RegimeClassifier.init (IncrementalMetrics.init 100 100)).2 rfl⟩

/-- Claim C6: the STRESSED and HFT states use asymmetric enter and exit
thresholds.  If the previous regime is STRESSED, the market is
calibrated, no crash condition holds, the signals are below the STRESSED
entry thresholds but still past the stricter exit thresholds, then
`classify` stays STRESSED; likewise, if the previous regime is HFT, no
crash or stressed-entry condition holds, the stability conditions hold
and the churn has dropped below the entry threshold 0.20 but is still at
least the exit threshold 0.12, then `classify` stays HFT. -/
theorem claim_C6 :
    (∀ (c : RegimeClassifier) (m : IncrementalMetrics),
       c.current_regime = Regime.STRESSED → m.calibrated = true →
       ¬ isCrashSignal m → ¬ stressedEnterCond m → stressedStayCond m →
       (c.classify m).2 = Regime.STRESSED) ∧
    (∀ (c : RegimeClassifier) (m : IncrementalMetrics),
       c.current_regime = Regime.HFT → m.calibrated = true →
       ¬ isCrashSignal m → ¬ stressedEnterCond m → hftStableCond m →
       12/100 ≤ m.churn_rate → m.churn_rate < 20/100 →
       (c.classify m).2 = Regime.HFT) := by
  constructor
  · intro c m hprev hcal hcrash henter hstay
    simp only [RegimeClassifier.classify, RegimeClassifier.nextRegime, hprev, hcal]
    rw [if_neg (by simp), if_neg hcrash,
        if_neg (by rintro ⟨h, -⟩; simp at h),
        if_neg (by simp), if_pos trivial, if_pos hstay]
  · intro c m hprev hcal hcrash henter hstable hlo hhi
    simp only [RegimeClassifier.classify, RegimeClassifier.nextRegime, hprev, hcal]
    rw [if_neg (by simp), if_neg hcrash,
        if_neg (by rintro ⟨h, -⟩; simp at h),
        if_neg (by simp), if_neg (by simp),
        if_neg henter, if_pos trivial, if_pos ⟨hstable, hlo⟩]

/-- Witness for claim C6: a spread ratio of 1.3 (between the STRESSED
exit threshold 1.2 and entry threshold 1.5) keeps a STRESSED classifier
STRESSED, and a churn of 0.15 (between the HFT exit threshold 0.12 and
entry threshold 0.20) keeps an HFT classifier HFT. -/
theorem claim_C6_witness :
    (¬ isCrashSignal stressedBoundaryMetrics ∧
     ¬ stressedEnterCond stressedBoundaryMetrics ∧
     stressedStayCond stressedBoundaryMetrics ∧
     ((⟨Regime.STRESSED, Regime.STRESSED, 0, 0⟩ : RegimeClassifier).classify
        stressedBoundaryMetrics).2 = Regime.STRESSED) ∧
    (¬ isCrashSignal hftBoundaryMetrics ∧
     ¬ stressedEnterCond hftBoundaryMetrics ∧
     hftStableCond hftBoundaryMetrics ∧
     12/100 ≤ hftBoundaryMetrics.churn_rate ∧
     hftBoundaryMetrics.churn_rate < 20/100 ∧
     ((⟨Regime.HFT, Regime.HFT, 0, 0⟩ : RegimeClassifier).classify
        hftBoundaryMetrics).2 = Regime.HFT) := by
  have h1 : ¬ isCrashSignal stressedBoundaryMetrics := by
    norm_num [isCrashSignal, stressedBoundaryMetrics, IncrementalMetrics.init]
  have h2 : ¬ stressedEnterCond stressedBoundaryMetrics := by
    norm_num [stressedEnterCond, stressedBoundaryMetrics, IncrementalMetrics.init]
  have h3 : stressedStayCond stressedBoundaryMetrics := by
    norm_num [stressedStayCond, stressedBoundaryMetrics, IncrementalMetrics.init]
  have h4 : ¬ isCrashSignal hftBoundaryMetrics := by
    norm_num [isCrashSignal, hftBoundaryMetrics, IncrementalMetrics.init]
  have h5 : ¬ stressedEnterCond hftBoundaryMetrics := by
    norm_num [stressedEnterCond, hftBoundaryMetrics, IncrementalMetrics.init]
  have h6 : hftStableCond hftBoundaryMetrics := by
    norm_num [hftStableCond, hftBoundaryMetrics, IncrementalMetrics.init]
  have h7 : 12/100 ≤ hftBoundaryMetrics.churn_rate := by
    norm_num [hftBoundaryMetrics, IncrementalMetrics.init]
  have h8 : hftBoundaryMetrics.churn_rate < 20/100 := by
    norm_num [hftBoundaryMetrics, IncrementalMetrics.init]
  exact ⟨⟨h1, h2, h3, claim_C6.1 _ _ rfl rfl h1 h2 h3⟩,
         ⟨h4, h5, h6, h7, h8, claim_C6.2 _ _ rfl rfl h4 h5 h6 h7 h8⟩⟩

/-- Claim C9: for every FILL event, the handler adds qty to the inventory
and subtracts qty times price from the cash flow on a BUY, subtracts qty
and adds qty times price on a SELL, then recomputes
pnl = cash_flow + inventory * last_mid; and when the order id is unknown
the position and cash update is applied all the same, with only the
latency bookkeeping (send-time map and fill-latency list) left
untouched. -/
theorem claim_C9 (s : TradingBotState) (f : Fill) (t : ℚ) :
    (f.side = Side.BUY →
       (TradingBot.onFill s f t).inventory = s.inventory + f.qty ∧
       (TradingBot.onFill s f t).cash_flow = s.cash_flow - (f.qty : ℚ) * f.price) ∧
    (f.side = Side.SELL →
       (TradingBot.onFill s f t).inventory = s.inventory - f.qty ∧
       (TradingBot.onFill s f t).cash_flow = s.cash_flow + (f.qty : ℚ) * f.price) ∧
    (TradingBot.onFill s f t).pnl
      = (TradingBot.onFill s f t).cash_flow
          + ((TradingBot.onFill s f t).inventory : ℚ) * s.last_mid ∧
    (s.order_send_times.lookup f.order_id = none →
       (TradingBot.onFill s f t).order_send_times = s.order_send_times ∧
       (TradingBot.onFill s f t).fill_latencies = s.fill_latencies) := by
  unfold TradingBot.onFill
  cases hs : f.side <;> cases hl : s.order_send_times.lookup f.order_id <;>
    simp [hs, hl]

/-- Witness for claim C9: a BUY fill of 100 at price 50 whose order id is
unknown to the engine (empty send-time map) still updates the position
and cash and skips only the latency bookkeeping. -/
theorem claim_C9_witness :
    (⟨("X"), Side.BUY, 50, 100⟩ : Fill).side = Side.BUY ∧
    ((⟨0, 0, 0, 100, [], [], 0⟩ : TradingBotState).order_send_times.lookup
        (⟨("X"), Side.BUY, 50, 100⟩ : Fill).order_id) = none ∧
    (TradingBot.onFill ⟨0, 0, 0, 100, [], [], 0⟩ ⟨("X"), Side.BUY, 50, 100⟩ 5).inventory
      = 0 + 100 ∧
    (TradingBot.onFill ⟨0, 0, 0, 100, [], [], 0⟩ ⟨("X"), Side.BUY, 50, 100⟩ 5).cash_flow
      = 0 - ((100 : Int) : ℚ) * 50 ∧
    (TradingBot.onFill ⟨0, 0, 0, 100, [], [], 0⟩ ⟨("X"), Side.BUY, 50, 100⟩ 5).order_send_times
      = [] ∧
    (TradingBot.onFill ⟨0, 0, 0, 100, [], [], 0⟩ ⟨("X"), Side.BUY, 50, 100⟩ 5).fill_latencies
      = [] := by
  have h := claim_C9 ⟨0, 0, 0, 100, [], [], 0⟩ ⟨("X"), Side.BUY, 50, 100⟩ 5
  exact ⟨rfl, rfl, (h.1 rfl).1, (h.1 rfl).2, (h.2.2.2 rfl).1, (h.2.2.2 rfl).2⟩

/-- Claim C8 (spec-modelled, the OrderLifecycleManager has no
implementation under src): `submit` cancels every resting order on the
opposite side whose price would be crossed by the new order (after a BUY
at price P no resting SELL priced at most P remains in the sell map, and
symmetrically for a SELL), the new order is accepted into its side map,
and when the resting count after the self-cross cancellation has reached
the cap, every surviving order other than the new one avoids the list of
the N oldest resting orders and has a submission step at least that of
each cancelled oldest order. -/
theorem claim_C8 (cap N : Nat) (b : OpenOrderBook) (o : OrderRecord) :
    (o.side = Side.BUY →
       (∀ r ∈ (OpenOrderBook.submit cap N b o).sells, o.price < r.price) ∧
       o ∈ (OpenOrderBook.submit cap N b o).buys) ∧
    (o.side = Side.SELL →
       (∀ r ∈ (OpenOrderBook.submit cap N b o).buys, r.price < o.price) ∧
       o ∈ (OpenOrderBook.submit cap N b o).sells) ∧
    (cap ≤ (b.crossCancel o).restingCount →
       ∀ r, (r ∈ (OpenOrderBook.submit cap N b o).buys ∨
             r ∈ (OpenOrderBook.submit cap N b o).sells) → r ≠ o →
         r ∉ (b.crossCancel o).oldestN N ∧
         ∀ x ∈ (b.crossCancel o).oldestN N, x.submittedStep ≤ r.submittedStep) := by
  refine ⟨?_, ?_, ?_⟩
  · intro ho
    constructor
    · intro r hr
      have hcc : r ∈ (b.crossCancel o).sells := by
        simp only [OpenOrderBook.submit] at hr
        rw [ho] at hr
        simp only [] at hr
        by_cases hcap : cap ≤ (b.crossCancel o).restingCount
        · rw [if_pos hcap] at hr
          simp only [OpenOrderBook.cancelOldest, List.mem_filter] at hr
          exact hr.1
        · rw [if_neg hcap] at hr
          exact hr
      unfold OpenOrderBook.crossCancel at hcc
      rw [ho] at hcc
      simp only [List.mem_filter, decide_eq_true_eq] at hcc
      exact hcc.2
    · simp only [OpenOrderBook.submit]
      rw [ho]
      exact List.mem_cons_self o _
  · intro ho
    constructor
    · intro r hr
      have hcc : r ∈ (b.crossCancel o).buys := by
        simp only [OpenOrderBook.submit] at hr
        rw [ho] at hr
        simp only [] at hr
        by_cases hcap : cap ≤ (b.crossCancel o).restingCount
        · rw [if_pos hcap] at hr
          simp only [OpenOrderBook.cancelOldest, List.mem_filter] at hr
          exact hr.1
        · rw [if_neg hcap] at hr
          exact hr
      unfold OpenOrderBook.crossCancel at hcc
      rw [ho] at hcc
      simp only [List.mem_filter, decide_eq_true_eq] at hcc
      exact hcc.2
    · simp only [OpenOrderBook.submit]
      rw [ho]
      exact List.mem_cons_self o _
  · intro hcap r hr hro
    obtain ⟨hmem, hnot⟩ := submit_mem_of_ne cap N b o r hro hr
    refine ⟨hnot hcap, ?_⟩
    exact oldestN_le _ N r (List.mem_append.mpr hmem) (hnot hcap)

/-- Witness for claim C8: a BUY at price 100 into a book with one resting
buy and two resting sells (priced 99 and 101), with cap 1 and N 1; the
sell at 99 is crossed and cancelled, the count is then at the cap, and
the oldest remaining order is cancelled before the new order rests. -/
theorem claim_C8_witness :
    (⟨("O"), Side.BUY, 100, 100, 9⟩ : OrderRecord).side = Side.BUY ∧
    1 ≤ ((OpenOrderBook.mk [⟨("B1"), Side.BUY, 95, 100, 5⟩]
        [⟨("S1"), Side.SELL, 99, 100, 3⟩, ⟨("S2"), Side.SELL, 101, 100, 7⟩]).crossCancel
          ⟨("O"), Side.BUY, 100, 100, 9⟩).restingCount ∧
    (∀ r ∈ (OpenOrderBook.submit 1 1
        (OpenOrderBook.mk [⟨("B1"), Side.BUY, 95, 100, 5⟩]
          [⟨("S1"), Side.SELL, 99, 100, 3⟩, ⟨("S2"), Side.SELL, 101, 100, 7⟩])
        ⟨("O"), Side.BUY, 100, 100, 9⟩).sells,
      (⟨("O"), Side.BUY, 100, 100, 9⟩ : OrderRecord).price < r.price) ∧
    (⟨("O"), Side.BUY, 100, 100, 9⟩ : OrderRecord) ∈ (OpenOrderBook.submit 1 1
        (OpenOrderBook.mk [⟨("B1"), Side.BUY, 95, 100, 5⟩]
          [⟨("S1"), Side.SELL, 99, 100, 3⟩, ⟨("S2"), Side.SELL, 101, 100, 7⟩])
        ⟨("O"), Side.BUY, 100, 100, 9⟩).buys ∧
    (∀ r, (r ∈ (OpenOrderBook.submit 1 1
          (OpenOrderBook.mk [⟨("B1"), Side.BUY, 95, 100, 5⟩]
            [⟨("S1"), Side.SELL, 99, 100, 3⟩, ⟨("S2"), Side.SELL, 101, 100, 7⟩])
          ⟨("O"), Side.BUY, 100, 100, 9⟩).buys ∨
        r ∈ (OpenOrderBook.submit 1 1
          (OpenOrderBook.mk [⟨("B1"), Side.BUY, 95, 100, 5⟩]
            [⟨("S1"), Side.SELL, 99, 100, 3⟩, ⟨("S2"), Side.SELL, 101, 100, 7⟩])
          ⟨("O"), Side.BUY, 100, 100, 9⟩).sells) →
      r ≠ ⟨("O"), Side.BUY, 100, 100, 9⟩ →
      r ∉ ((OpenOrderBook.mk [⟨("B1"), Side.BUY, 95, 100, 5⟩]
          [⟨("S1"), Side.SELL, 99, 100, 3⟩, ⟨("S2"), Side.SELL, 101, 100, 7⟩]).crossCancel
            ⟨("O"), Side.BUY, 100, 100, 9⟩).oldestN 1 ∧
      ∀ x ∈ ((OpenOrderBook.mk [⟨("B1"), Side.BUY, 95, 100, 5⟩]
          [⟨("S1"), Side.SELL, 99, 100, 3⟩, ⟨("S2"), Side.SELL, 101, 100, 7⟩]).crossCancel
            ⟨("O"), Side.BUY, 100, 100, 9⟩).oldestN 1,
        x.submittedStep ≤ r.submittedStep) := by
  have hcap : 1 ≤ ((OpenOrderBook.mk [⟨("B1"), Side.BUY, 95, 100, 5⟩]
      [⟨("S1"), Side.SELL, 99, 100, 3⟩, ⟨("S2"), Side.SELL, 101, 100, 7⟩]).crossCancel
        ⟨("O"), Side.BUY, 100, 100, 9⟩).restingCount := by
    norm_num [OpenOrderBook.crossCancel, OpenOrderBook.restingCount]
  have h := claim_C8 1 1
    (OpenOrderBook.mk [⟨("B1"), Side.BUY, 95, 100, 5⟩]
      [⟨("S1"), Side.SELL, 99, 100, 3⟩, ⟨("S2"), Side.SELL, 101, 100, 7⟩])
    ⟨("O"), Side.BUY, 100, 100, 9⟩
  exact ⟨rfl, hcap, (h.1 rfl).1, (h.1 rfl).2, h.2.2 hcap⟩
